/-
  Verification of the street-sum grid/token game engine (src/src/main.ts).

  Shallow embedding: the mutable globals of main.ts (playerHeldToken,
  tokenMap, changedCells, movementMode, playerCell, and the localStorage
  collaborator) become one explicit GameState record; each click handler
  becomes a state-transition function mirroring the handler's code.
  JS Maps keyed by the string `i,j` are modelled as association lists
  keyed by the integer pair (i, j) (the string form is injective on
  integer pairs).  DOM/status-text effects are not part of the state.
  localStorage is modelled as a write log of structured payloads: each
  saveSession call conses the serialized payload onto the log, and
  loadSession reads the most recent write.  The luck hash (_luck.ts, not
  in src/) is abstracted as its output r; per the spec it is a pure value
  in [0,1), modelled as a rational.
-/
import Mathlib

namespace StreetSum

/-- A grid cell key: the source keys its maps by the string `i,j`. -/
abbrev Key := Int × Int

/-- Player cell indices (main.ts playerCell). -/
structure Cell where
  i : Int
  j : Int
  deriving DecidableEq, Repr

/-- Movement mode: 'button' or 'geolocation' (main.ts line 93). -/
inductive MovementMode
  | button
  | geolocation
  deriving DecidableEq, Repr

/-- The session payload written to localStorage by saveSession
    (main.ts lines 120-139): movementMode, playerHeldToken,
    changedCells, and playerCell (present only in button mode). -/
structure Payload where
  movementMode : MovementMode
  playerHeldToken : Option Int
  changedCells : List (Key × Option Int)
  playerCell : Option Cell
  deriving DecidableEq, Repr

/-- The game state: the mutable globals of main.ts plus the
    localStorage collaborator modelled as a write log (head = most
    recent write).  tokenMap entries keep only the token value (the
    leaflet marker is DOM).  changedCells entries are `Option Int`:
    `some v` models `{value: v}`, `none` models `{value: null}`. -/
structure GameState where
  playerHeldToken : Option Int
  tokenMap : List (Key × Int)
  changedCells : List (Key × Option Int)
  movementMode : MovementMode
  playerCell : Cell
  store : List Payload
  deriving DecidableEq, Repr

/-- Map.get: first binding for the key (keys are unique in any state
    built by the operations below, as in a JS Map). -/
def mapGet {V : Type} (m : List (Key × V)) (k : Key) : Option V :=
  match m with
  | [] => none
  | (k', v) :: rest => if k' = k then some v else mapGet rest k

/-- Map.set: replace the binding for the key, or append a new one. -/
def mapSet {V : Type} (m : List (Key × V)) (k : Key) (v : V) : List (Key × V) :=
  match m with
  | [] => [(k, v)]
  | (k', v') :: rest =>
      if k' = k then (k, v) :: rest else (k', v') :: mapSet rest k v

/-- Map.delete: remove the binding for the key. -/
def mapDelete {V : Type} (m : List (Key × V)) (k : Key) : List (Key × V) :=
  m.filter (fun p => p.1 ≠ k)

/-- main.ts line 289. -/
def PICKUP_RADIUS : Int := 3

/-- main.ts line 287 (the float 0.1, exact as a rational). -/
def TOKEN_SPAWN_PROBABILITY : ℚ := 1 / 10

/-- main.ts line 285. -/
def TOKEN_SKEW : ℕ := 2

/-- The reach check repeated in every click handler (main.ts lines
    402-403, 469-470, 518-519, 576-577, 642-643):
    Math.abs(i - playerCell.i) <= PICKUP_RADIUS &&
    Math.abs(j - playerCell.j) <= PICKUP_RADIUS. -/
def withinRange (i j : Int) (p : Cell) : Prop :=
  |i - p.i| ≤ PICKUP_RADIUS ∧ |j - p.j| ≤ PICKUP_RADIUS

instance (i j : Int) (p : Cell) : Decidable (withinRange i j p) := by
  unfold withinRange
  infer_instance

/-- The deterministic spawn computation of spawnTokenAtCell (main.ts
    lines 456-463), as a function of the luck value r = luck("i,j"):
    no token when r >= TOKEN_SPAWN_PROBABILITY; otherwise
    bin = floor((r / TOKEN_SPAWN_PROBABILITY)^TOKEN_SKEW * maxBins)
    clamped into [0, maxBins-1], token value 2^bin. -/
def spawnTokenValue (r : ℚ) : Option Int :=
  if TOKEN_SPAWN_PROBABILITY ≤ r then none
  else
    let maxBins : Int := 7
    let norm : ℚ := r / TOKEN_SPAWN_PROBABILITY
    let bin0 : Int := ⌊norm ^ TOKEN_SKEW * (7 : ℚ)⌋
    let bin1 : Int := if bin0 < 0 then 0 else bin0
    let bin2 : Int := if maxBins ≤ bin1 then maxBins - 1 else bin1
    some (2 ^ bin2.toNat)

/-- Per-cell content resolution of createCell (main.ts lines 629-690):
    an overlay entry is honored exactly (non-null value shows that
    token, null shows nothing); only an absent entry falls through to
    the deterministic spawn on the luck value r. -/
def renderCellContent (overlayEntry : Option (Option Int)) (r : ℚ) : Option Int :=
  match overlayEntry with
  | some (some v) => some v
  | some none => none
  | none => spawnTokenValue r

/-- renderVisibleCells (main.ts lines 432-452): tokenMap is cleared and
    rebuilt by running createCell on every visible cell; luckv gives
    each cell's luck value. -/
def renderVisibleCells (visible : List Key) (luckv : Key → ℚ)
    (overlay : List (Key × Option Int)) : List (Key × Int) :=
  visible.filterMap (fun k =>
    (renderCellContent (mapGet overlay k) (luckv k)).map (fun v => (k, v)))

/-- The payload saveSession serializes (main.ts lines 122-133):
    playerCell is included only in button mode. -/
def sessionPayload (s : GameState) : Payload :=
  { movementMode := s.movementMode
    playerHeldToken := s.playerHeldToken
    changedCells := s.changedCells
    playerCell :=
      if s.movementMode = MovementMode.button then some s.playerCell else none }

/-- saveSession (main.ts lines 120-139): localStorage.setItem of the
    serialized payload, modelled as consing it onto the write log. -/
def saveSession (s : GameState) : GameState :=
  { s with store := sessionPayload s :: s.store }

/-- loadSession (main.ts lines 142-202): reads the stored payload (if
    any), restores movementMode, playerHeldToken and changedCells, and
    restores playerCell only when the restored mode is button and the
    payload carries a cell. -/
def loadSession (s : GameState) : GameState :=
  match s.store with
  | [] => s
  | p :: _ =>
    let s1 : GameState :=
      { s with
        movementMode := p.movementMode
        playerHeldToken := p.playerHeldToken
        changedCells := p.changedCells }
    match p.playerCell with
    | some c =>
        if p.movementMode = MovementMode.button then
          { s1 with playerCell := c }
        else s1
    | none => s1

/-- The click handler wired on a spawned coin marker (main.ts lines
    468-512): out of reach or no entry is a pure rejection; an
    empty-handed click picks the token up (hand := value, tile
    deleted, overlay := null, saveSession); a matching held token
    merges (tile and overlay := 2*value, saveSession with the hand not
    yet emptied, then hand := none); a mismatched held token is a pure
    rejection. -/
def spawnedTokenClick (i j : Int) (s : GameState) : GameState :=
  if ¬ withinRange i j s.playerCell then s
  else
    let key : Key := (i, j)
    match mapGet s.tokenMap key with
    | none => s
    | some currentValue =>
      match s.playerHeldToken with
      | none =>
          saveSession
            { s with
              playerHeldToken := some currentValue
              tokenMap := mapDelete s.tokenMap key
              changedCells := mapSet s.changedCells key none }
      | some h =>
          if h = currentValue then
            let newValue := currentValue * 2
            let s1 : GameState :=
              { s with
                tokenMap := mapSet s.tokenMap key newValue
                changedCells := mapSet s.changedCells key (some newValue) }
            let s2 := saveSession s1
            { s2 with playerHeldToken := none }
          else s

/-- The click handler wired on a marker placed by attachDropHandler
    (main.ts lines 575-619): identical logic to spawnedTokenClick,
    saveSession included in both mutating branches. -/
def placedTokenClick (i j : Int) (s : GameState) : GameState :=
  spawnedTokenClick i j s

/-- The click handler wired on a marker restored from an overlay entry
    by createCell (main.ts lines 641-681): same pickup/merge logic,
    but NEITHER branch calls saveSession (the source mutates
    changedCells and returns without persisting). -/
def restoredTokenClick (i j : Int) (s : GameState) : GameState :=
  if ¬ withinRange i j s.playerCell then s
  else
    let key : Key := (i, j)
    match mapGet s.tokenMap key with
    | none => s
    | some current =>
      match s.playerHeldToken with
      | none =>
          { s with
            playerHeldToken := some current
            tokenMap := mapDelete s.tokenMap key
            changedCells := mapSet s.changedCells key none }
      | some h =>
          if h = current then
            let newValue := current * 2
            { s with
              tokenMap := mapSet s.tokenMap key newValue
              changedCells := mapSet s.changedCells key (some newValue)
              playerHeldToken := none }
          else s

/-- The rectangle click handler of attachDropHandler (main.ts lines
    516-625): out of reach rejects; tile occupied with a matching held
    token merges (saveSession before the hand empties); occupied with
    a mismatched held token, occupied while empty-handed, or empty
    tile while empty-handed all reject; otherwise the held token is
    placed (tile and overlay := held value, saveSession, hand := none,
    saveSession again). -/
def rectClick (i j : Int) (s : GameState) : GameState :=
  if ¬ withinRange i j s.playerCell then s
  else
    let key : Key := (i, j)
    match mapGet s.tokenMap key, s.playerHeldToken with
    | some entry, some h =>
        if entry = h then
          let newValue := entry * 2
          let s1 : GameState :=
            { s with
              tokenMap := mapSet s.tokenMap key newValue
              changedCells := mapSet s.changedCells key (some newValue) }
          let s2 := saveSession s1
          { s2 with playerHeldToken := none }
        else s
    | some _, none => s
    | none, none => s
    | none, some h =>
        let s1 : GameState :=
          { s with
            tokenMap := mapSet s.tokenMap key h
            changedCells := mapSet s.changedCells key (some h) }
        let s2 := saveSession s1
        let s3 : GameState := { s2 with playerHeldToken := none }
        saveSession s3

/-- The four cardinal directions of movePlayer. -/
inductive Direction
  | north
  | south
  | east
  | west
  deriving DecidableEq, Repr

/-- movePlayer (main.ts lines 361-391): rejected (status text only)
    when not forced and the mode is not button; otherwise one cell
    coordinate steps by 1 in the chosen direction, the visible cells
    are re-rendered, and the session is saved. -/
def movePlayer (dir : Direction) (force : Bool) (visible : List Key)
    (luckv : Key → ℚ) (s : GameState) : GameState :=
  if force = false ∧ s.movementMode ≠ MovementMode.button then s
  else
    let pc : Cell :=
      match dir with
      | Direction.north => ⟨s.playerCell.i + 1, s.playerCell.j⟩
      | Direction.south => ⟨s.playerCell.i - 1, s.playerCell.j⟩
      | Direction.east => ⟨s.playerCell.i, s.playerCell.j + 1⟩
      | Direction.west => ⟨s.playerCell.i, s.playerCell.j - 1⟩
    let s1 : GameState := { s with playerCell := pc }
    let s2 : GameState :=
      { s1 with tokenMap := renderVisibleCells visible luckv s1.changedCells }
    saveSession s2

/-- A bare re-render, as triggered by the map moveend event
    (main.ts lines 854-856). -/
def renderStep (visible : List Key) (luckv : Key → ℚ) (s : GameState) : GameState :=
  { s with tokenMap := renderVisibleCells visible luckv s.changedCells }

/-- The fresh initial state: empty hand, empty maps, geolocation mode
    (main.ts lines 84-93), player cell = floor of the classroom
    origin (36.997936..., -122.057035...) over TILE_DEGREES = 1e-4. -/
def initialState : GameState :=
  { playerHeldToken := none
    tokenMap := []
    changedCells := []
    movementMode := MovementMode.geolocation
    playerCell := ⟨369979, -1220571⟩
    store := [] }

/-- States reachable from the fresh initial state by the interaction
    transitions (clicks on spawned, placed and restored tokens, rect
    clicks), movement, and re-renders, for a fixed luck function. -/
inductive Reachable (luckv : Key → ℚ) : GameState → Prop
  | init : Reachable luckv initialState
  | spawnedClick (s : GameState) (i j : Int) :
      Reachable luckv s → Reachable luckv (spawnedTokenClick i j s)
  | placedClick (s : GameState) (i j : Int) :
      Reachable luckv s → Reachable luckv (placedTokenClick i j s)
  | restoredClick (s : GameState) (i j : Int) :
      Reachable luckv s → Reachable luckv (restoredTokenClick i j s)
  | rect (s : GameState) (i j : Int) :
      Reachable luckv s → Reachable luckv (rectClick i j s)
  | move (s : GameState) (dir : Direction) (force : Bool) (visible : List Key) :
      Reachable luckv s → Reachable luckv (movePlayer dir force visible luckv s)
  | render (s : GameState) (visible : List Key) :
      Reachable luckv s → Reachable luckv (renderStep visible luckv s)

/-- v is a power of two. -/
def IsPow2 (v : Int) : Prop := ∃ n : ℕ, v = 2 ^ n

/-- The power-of-two invariant on the three relevant components:
    every board token value, the held token (when present), and every
    non-null overlay value is a power of two. -/
def TokensPow2Core (tm : List (Key × Int)) (held : Option Int)
    (cc : List (Key × Option Int)) : Prop :=
  (∀ k v, mapGet tm k = some v → IsPow2 v) ∧
  (∀ v, held = some v → IsPow2 v) ∧
  (∀ k v, mapGet cc k = some (some v) → IsPow2 v)

/-- The power-of-two invariant of a game state. -/
def TokensPow2 (s : GameState) : Prop :=
  TokensPow2Core s.tokenMap s.playerHeldToken s.changedCells

/- ## Map lemmas -/

theorem mapGet_mapSet {V : Type} (m : List (Key × V)) (k k' : Key) (v : V) :
    mapGet (mapSet m k v) k' = if k = k' then some v else mapGet m k' := by
  induction m with
  | nil => simp [mapSet, mapGet]
  | cons p rest ih =>
      obtain ⟨pk, pv⟩ := p
      by_cases hpk : pk = k
      · subst hpk
        simp only [mapSet, if_pos rfl, mapGet]
        split_ifs <;> simp_all [mapGet]
      · simp only [mapSet, if_neg hpk, mapGet, ih]
        split_ifs <;> simp_all

theorem mapGet_mapDelete {V : Type} (m : List (Key × V)) (k k' : Key) :
    mapGet (mapDelete m k) k' = if k = k' then none else mapGet m k' := by
  induction m with
  | nil => simp [mapDelete, mapGet]
  | cons p rest ih =>
      obtain ⟨pk, pv⟩ := p
      by_cases hpk : pk = k
      · subst hpk
        have hstep : mapDelete ((pk, pv) :: rest) pk = mapDelete rest pk := by
          simp [mapDelete]
        rw [hstep, ih]
        by_cases hk' : pk = k'
        · simp [hk']
        · simp [hk', mapGet, if_neg hk']
      · have hstep : mapDelete ((pk, pv) :: rest) k = (pk, pv) :: mapDelete rest k := by
          simp [mapDelete, hpk]
        rw [hstep]
        by_cases hk' : pk = k'
        · subst hk'
          have hne : k ≠ pk := fun h => hpk h.symm
          simp [mapGet, ih, hne]
        · simp [mapGet, hk', ih]

theorem mapGet_mem {V : Type} {m : List (Key × V)} {k : Key} {v : V}
    (h : mapGet m k = some v) : (k, v) ∈ m := by
  induction m with
  | nil => simp [mapGet] at h
  | cons p rest ih =>
      obtain ⟨pk, pv⟩ := p
      simp only [mapGet] at h
      by_cases hpk : pk = k
      · subst hpk
        rw [if_pos rfl] at h
        injection h with h
        subst h
        exact List.mem_cons_self _ _
      · rw [if_neg hpk] at h
        exact List.mem_cons_of_mem _ (ih h)

/- ## Render lemmas -/

theorem renderVisibleCells_mem {visible : List Key} {luckv : Key → ℚ}
    {overlay : List (Key × Option Int)} {k : Key} {v : Int}
    (h : (k, v) ∈ renderVisibleCells visible luckv overlay) :
    renderCellContent (mapGet overlay k) (luckv k) = some v := by
  unfold renderVisibleCells at h
  rw [List.mem_filterMap] at h
  obtain ⟨k', _, hres⟩ := h
  cases hc : renderCellContent (mapGet overlay k') (luckv k') with
  | none => rw [hc] at hres; simp at hres
  | some w =>
      rw [hc] at hres
      simp only [Option.map_some', Option.some.injEq, Prod.mk.injEq] at hres
      obtain ⟨hk, hv⟩ := hres
      subst hk; subst hv
      exact hc

theorem render_cleared {visible : List Key} {luckv : Key → ℚ}
    {overlay : List (Key × Option Int)} {k : Key}
    (h : mapGet overlay k = some none) :
    mapGet (renderVisibleCells visible luckv overlay) k = none := by
  cases hg : mapGet (renderVisibleCells visible luckv overlay) k with
  | none => rfl
  | some v =>
      have hres := renderVisibleCells_mem (mapGet_mem hg)
      rw [h] at hres
      simp [renderCellContent] at hres

theorem spawnTokenValue_pow2 {r : ℚ} {v : Int}
    (h : spawnTokenValue r = some v) : IsPow2 v := by
  unfold spawnTokenValue at h
  split at h
  · exact absurd h (by simp)
  · simp only [Option.some.injEq] at h
    exact ⟨_, h.symm⟩

/- ## Invariant preservation lemmas -/

theorem IsPow2.double {v : Int} (h : IsPow2 v) : IsPow2 (v * 2) := by
  obtain ⟨n, rfl⟩ := h
  exact ⟨n + 1, (pow_succ 2 n).symm⟩

theorem TokensPow2Core_pickup {tm : List (Key × Int)} {held : Option Int}
    {cc : List (Key × Option Int)} {k : Key} {v : Int}
    (h : TokensPow2Core tm held cc) (hg : mapGet tm k = some v) :
    TokensPow2Core (mapDelete tm k) (some v) (mapSet cc k none) := by
  obtain ⟨htm, _, hov⟩ := h
  refine ⟨?_, ?_, ?_⟩
  · intro k' w hw
    rw [mapGet_mapDelete] at hw
    split_ifs at hw
    exact htm k' w hw
  · intro w hw
    injection hw with hw
    subst hw
    exact htm k v hg
  · intro k' w hw
    rw [mapGet_mapSet] at hw
    split_ifs at hw
    · exact absurd hw (by simp)
    · exact hov k' w hw

theorem TokensPow2Core_put {tm : List (Key × Int)} {held : Option Int}
    {cc : List (Key × Option Int)} {k : Key} {w : Int}
    (h : TokensPow2Core tm held cc) (hw : IsPow2 w) :
    TokensPow2Core (mapSet tm k w) none (mapSet cc k (some w)) := by
  obtain ⟨htm, _, hov⟩ := h
  refine ⟨?_, ?_, ?_⟩
  · intro k' u hu
    rw [mapGet_mapSet] at hu
    split_ifs at hu
    · injection hu with hu; subst hu; exact hw
    · exact htm k' u hu
  · intro u hu
    exact absurd hu (by simp)
  · intro k' u hu
    rw [mapGet_mapSet] at hu
    split_ifs at hu
    · injection hu with hu; injection hu with hu; subst hu; exact hw
    · exact hov k' u hu

theorem TokensPow2Core_render {tm : List (Key × Int)} {held : Option Int}
    {cc : List (Key × Option Int)} (h : TokensPow2Core tm held cc)
    (visible : List Key) (luckv : Key → ℚ) :
    TokensPow2Core (renderVisibleCells visible luckv cc) held cc := by
  obtain ⟨_, hheld, hov⟩ := h
  refine ⟨?_, hheld, hov⟩
  intro k v hv
  have hres := renderVisibleCells_mem (mapGet_mem hv)
  cases hc : mapGet cc k with
  | none =>
      rw [hc] at hres
      exact spawnTokenValue_pow2 hres
  | some e =>
      cases e with
      | none => rw [hc] at hres; simp [renderCellContent] at hres
      | some w =>
          rw [hc] at hres
          simp only [renderCellContent, Option.some.injEq] at hres
          subst hres
          exact hov k w hc

theorem TokensPow2_spawnedTokenClick {s : GameState} (hs : TokensPow2 s)
    (i j : Int) : TokensPow2 (spawnedTokenClick i j s) := by
  unfold spawnedTokenClick
  by_cases hin : ¬ withinRange i j s.playerCell
  · rw [if_pos hin]; exact hs
  · rw [if_neg hin]
    dsimp only
    cases hg : mapGet s.tokenMap (i, j) with
    | none => exact hs
    | some v =>
        cases hh : s.playerHeldToken with
        | none => exact TokensPow2Core_pickup hs hg
        | some h =>
            dsimp only
            by_cases hv : h = v
            · rw [if_pos hv]
              exact TokensPow2Core_put hs ((hs.1 (i, j) v hg).double)
            · rw [if_neg hv]; exact hs

theorem TokensPow2_restoredTokenClick {s : GameState} (hs : TokensPow2 s)
    (i j : Int) : TokensPow2 (restoredTokenClick i j s) := by
  unfold restoredTokenClick
  by_cases hin : ¬ withinRange i j s.playerCell
  · rw [if_pos hin]; exact hs
  · rw [if_neg hin]
    dsimp only
    cases hg : mapGet s.tokenMap (i, j) with
    | none => exact hs
    | some v =>
        cases hh : s.playerHeldToken with
        | none => exact TokensPow2Core_pickup hs hg
        | some h =>
            dsimp only
            by_cases hv : h = v
            · rw [if_pos hv]
              exact TokensPow2Core_put hs ((hs.1 (i, j) v hg).double)
            · rw [if_neg hv]; exact hs

theorem TokensPow2_rectClick {s : GameState} (hs : TokensPow2 s)
    (i j : Int) : TokensPow2 (rectClick i j s) := by
  unfold rectClick
  by_cases hin : ¬ withinRange i j s.playerCell
  · rw [if_pos hin]; exact hs
  · rw [if_neg hin]
    dsimp only
    cases hg : mapGet s.tokenMap (i, j) with
    | none =>
        cases hh : s.playerHeldToken with
        | none => exact hs
        | some h => exact TokensPow2Core_put hs (hs.2.1 h hh)
    | some v =>
        cases hh : s.playerHeldToken with
        | none => exact hs
        | some h =>
            dsimp only
            by_cases hv : v = h
            · rw [if_pos hv]
              exact TokensPow2Core_put hs ((hs.1 (i, j) v hg).double)
            · rw [if_neg hv]; exact hs

theorem TokensPow2_movePlayer {s : GameState} (hs : TokensPow2 s)
    (dir : Direction) (force : Bool) (visible : List Key) (luckv : Key → ℚ) :
    TokensPow2 (movePlayer dir force visible luckv s) := by
  unfold movePlayer
  split
  · exact hs
  · exact TokensPow2Core_render hs visible luckv

/- ## Claim theorems -/

/-- C5: the reach predicate shared by every pickup, merge and placement
handler is exactly Chebyshev distance at most PICKUP_RADIUS = 3; in
particular a cell at (playerI+3, playerJ+3) is in reach and a cell at
(playerI+3, playerJ+4) is not. -/
theorem withinRange_is_chebyshev (i j : Int) (p : Cell) :
    (withinRange i j p ↔ max |i - p.i| |j - p.j| ≤ PICKUP_RADIUS) ∧
    PICKUP_RADIUS = 3 ∧
    withinRange (p.i + 3) (p.j + 3) p ∧
    ¬ withinRange (p.i + 3) (p.j + 4) p := by
  refine ⟨(max_le_iff).symm, rfl, ?_, ?_⟩
  · unfold withinRange PICKUP_RADIUS
    constructor <;> (rw [abs_le]; omega)
  · unfold withinRange PICKUP_RADIUS
    intro h
    have h2 := h.2
    rw [abs_le] at h2
    omega

/-- C2: per-cell rendering honors an overlay entry exactly — a non-null
entry displays exactly that value, a null entry displays nothing, and
the deterministic spawn generator is not consulted (the resolved
content is independent of the luck value); only an absent entry falls
through to the generator.  A player-cleared cell therefore still
renders empty on any later render pass. -/
theorem createCell_overlay_resolution (ov : List (Key × Option Int)) (k : Key)
    (v : Int) (r r' : ℚ) (e : Option Int) (visible : List Key) (luckv : Key → ℚ)
    (hclear : mapGet ov k = some none) :
    renderCellContent (some (some v)) r = some v ∧
    renderCellContent (some none) r = none ∧
    renderCellContent (some e) r = renderCellContent (some e) r' ∧
    renderCellContent none r = spawnTokenValue r ∧
    mapGet (renderVisibleCells visible luckv ov) k = none := by
  refine ⟨rfl, rfl, ?_, rfl, render_cleared hclear⟩
  cases e <;> rfl

/-- Witness for C2 at a concrete overlay with (0,0) cleared. -/
theorem createCell_overlay_resolution_witness :
    mapGet [(((0 : Int), (0 : Int)), (none : Option Int))] (0, 0) = some none ∧
    (renderCellContent (some (some 4)) (1 / 20) = some 4 ∧
     renderCellContent (some none) (1 / 20) = none ∧
     renderCellContent (some (some 4)) (1 / 20) =
       renderCellContent (some (some 4)) (1 / 2) ∧
     renderCellContent none (1 / 20) = spawnTokenValue (1 / 20) ∧
     mapGet (renderVisibleCells [(0, 0)] (fun _ => 1 / 20)
       [(((0 : Int), (0 : Int)), (none : Option Int))]) (0, 0) = none) :=
  ⟨rfl, createCell_overlay_resolution _ _ 4 (1 / 20) (1 / 2) (some 4) _ _ rfl⟩

/-- C7: an empty-handed in-reach click on a tile token of value v picks
it up: the hand becomes v, the tile becomes empty, and the overlay
records a null entry for that cell. -/
theorem pickup_click_law (s : GameState) (i j v : Int)
    (hin : withinRange i j s.playerCell)
    (htile : mapGet s.tokenMap (i, j) = some v)
    (hheld : s.playerHeldToken = none) :
    (spawnedTokenClick i j s).playerHeldToken = some v ∧
    mapGet (spawnedTokenClick i j s).tokenMap (i, j) = none ∧
    mapGet (spawnedTokenClick i j s).changedCells (i, j) = some none := by
  unfold spawnedTokenClick
  rw [if_neg (not_not_intro hin)]
  dsimp only
  rw [htile, hheld]
  dsimp only [saveSession]
  refine ⟨rfl, ?_, ?_⟩
  · rw [mapGet_mapDelete, if_pos rfl]
  · rw [mapGet_mapSet, if_pos rfl]

/-- Witness for C7: the spec scenario — picking up a token of value 4. -/
theorem pickup_click_law_witness :
    (withinRange 0 0 (⟨0, 0⟩ : Cell) ∧
     mapGet [(((0 : Int), (0 : Int)), (4 : Int))] (0, 0) = some 4) ∧
    ((spawnedTokenClick 0 0
        { playerHeldToken := none
          tokenMap := [((0, 0), 4)]
          changedCells := []
          movementMode := MovementMode.button
          playerCell := ⟨0, 0⟩
          store := [] }).playerHeldToken = some 4 ∧
     mapGet (spawnedTokenClick 0 0
        { playerHeldToken := none
          tokenMap := [((0, 0), 4)]
          changedCells := []
          movementMode := MovementMode.button
          playerCell := ⟨0, 0⟩
          store := [] }).tokenMap (0, 0) = none ∧
     mapGet (spawnedTokenClick 0 0
        { playerHeldToken := none
          tokenMap := [((0, 0), 4)]
          changedCells := []
          movementMode := MovementMode.button
          playerCell := ⟨0, 0⟩
          store := [] }).changedCells (0, 0) = some none) :=
  ⟨⟨by decide, by decide⟩,
    pickup_click_law _ 0 0 4 (by decide) (by decide) rfl⟩

/-- C1: the merge law for clicks on an in-reach tile token of value v
while holding h (both the spawned-token click handler and the
rectangle drop handler): if h = v the tile ends holding 2*v, the
overlay records 2*v for the cell, and the hand empties; if h ≠ v the
click changes nothing (tile, overlay, hand, and all other state are
untouched). -/
theorem merge_click_law (s : GameState) (i j v h : Int)
    (hin : withinRange i j s.playerCell)
    (htile : mapGet s.tokenMap (i, j) = some v)
    (hheld : s.playerHeldToken = some h) :
    (h = v →
      mapGet (spawnedTokenClick i j s).tokenMap (i, j) = some (2 * v) ∧
      mapGet (spawnedTokenClick i j s).changedCells (i, j) = some (some (2 * v)) ∧
      (spawnedTokenClick i j s).playerHeldToken = none ∧
      mapGet (rectClick i j s).tokenMap (i, j) = some (2 * v) ∧
      mapGet (rectClick i j s).changedCells (i, j) = some (some (2 * v)) ∧
      (rectClick i j s).playerHeldToken = none) ∧
    (h ≠ v → spawnedTokenClick i j s = s ∧ rectClick i j s = s) := by
  constructor
  · intro hv
    subst hv
    simp [spawnedTokenClick, rectClick, hin, htile, hheld, saveSession,
      mapGet_mapSet, mul_comm]
  · intro hv
    have hv' : v ≠ h := fun hh => hv hh.symm
    simp [spawnedTokenClick, rectClick, hin, htile, hheld, hv, hv']

/-- Witness for C1: merging held 2 onto a tile holding 2 in reach. -/
theorem merge_click_law_witness :
    (withinRange 1 1 (⟨0, 0⟩ : Cell) ∧
     mapGet [(((1 : Int), (1 : Int)), (2 : Int))] (1, 1) = some 2) ∧
    (mapGet (spawnedTokenClick 1 1
        { playerHeldToken := some 2
          tokenMap := [((1, 1), 2)]
          changedCells := []
          movementMode := MovementMode.button
          playerCell := ⟨0, 0⟩
          store := [] }).tokenMap (1, 1) = some 4 ∧
     mapGet (spawnedTokenClick 1 1
        { playerHeldToken := some 2
          tokenMap := [((1, 1), 2)]
          changedCells := []
          movementMode := MovementMode.button
          playerCell := ⟨0, 0⟩
          store := [] }).changedCells (1, 1) = some (some 4) ∧
     (spawnedTokenClick 1 1
        { playerHeldToken := some 2
          tokenMap := [((1, 1), 2)]
          changedCells := []
          movementMode := MovementMode.button
          playerCell := ⟨0, 0⟩
          store := [] }).playerHeldToken = none ∧
     mapGet (rectClick 1 1
        { playerHeldToken := some 2
          tokenMap := [((1, 1), 2)]
          changedCells := []
          movementMode := MovementMode.button
          playerCell := ⟨0, 0⟩
          store := [] }).tokenMap (1, 1) = some 4 ∧
     mapGet (rectClick 1 1
        { playerHeldToken := some 2
          tokenMap := [((1, 1), 2)]
          changedCells := []
          movementMode := MovementMode.button
          playerCell := ⟨0, 0⟩
          store := [] }).changedCells (1, 1) = some (some 4) ∧
     (rectClick 1 1
        { playerHeldToken := some 2
          tokenMap := [((1, 1), 2)]
          changedCells := []
          movementMode := MovementMode.button
          playerCell := ⟨0, 0⟩
          store := [] }).playerHeldToken = none) :=
  ⟨⟨by decide, by decide⟩,
    (merge_click_law _ 1 1 2 2 (by decide) (by decide) rfl).1 rfl⟩

/-- C6: every rejected interaction — an out-of-reach click of any kind,
a mismatched merge attempt, a placement onto an occupied tile, or a
placement while holding nothing — leaves the entire state (overlay
store, token map, held token, player cell, persisted store) unchanged. -/
theorem rejected_clicks_no_change :
    (∀ (s : GameState) (i j : Int), ¬ withinRange i j s.playerCell →
      spawnedTokenClick i j s = s ∧ restoredTokenClick i j s = s ∧
      placedTokenClick i j s = s ∧ rectClick i j s = s) ∧
    (∀ (s : GameState) (i j h v : Int), s.playerHeldToken = some h →
      mapGet s.tokenMap (i, j) = some v → h ≠ v →
      spawnedTokenClick i j s = s ∧ restoredTokenClick i j s = s ∧
      placedTokenClick i j s = s ∧ rectClick i j s = s) ∧
    (∀ (s : GameState) (i j v : Int), s.playerHeldToken = none →
      mapGet s.tokenMap (i, j) = some v → rectClick i j s = s) ∧
    (∀ (s : GameState) (i j : Int), s.playerHeldToken = none →
      mapGet s.tokenMap (i, j) = none → rectClick i j s = s) := by
  refine ⟨?_, ?_, ?_, ?_⟩
  · intro s i j hout
    unfold spawnedTokenClick restoredTokenClick placedTokenClick spawnedTokenClick rectClick
    rw [if_pos hout, if_pos hout, if_pos hout]
    exact ⟨rfl, rfl, rfl, rfl⟩
  · intro s i j h v hheld htile hv
    have hv' : v ≠ h := fun hh => hv hh.symm
    by_cases hin : withinRange i j s.playerCell
    · simp [placedTokenClick, spawnedTokenClick, restoredTokenClick, rectClick,
        hin, htile, hheld, hv, hv']
    · simp [placedTokenClick, spawnedTokenClick, restoredTokenClick, rectClick,
        hin]
  · intro s i j v hheld htile
    unfold rectClick
    by_cases hin : ¬ withinRange i j s.playerCell
    · rw [if_pos hin]
    · rw [if_neg hin]
      dsimp only
      rw [htile, hheld]
  · intro s i j hheld htile
    unfold rectClick
    by_cases hin : ¬ withinRange i j s.playerCell
    · rw [if_pos hin]
    · rw [if_neg hin]
      dsimp only
      rw [htile, hheld]

/-- Witness for C6: concrete instances of all four rejection kinds. -/
theorem rejected_clicks_no_change_witness :
    (¬ withinRange 9 0 (⟨0, 0⟩ : Cell) ∧
     spawnedTokenClick 9 0
        { playerHeldToken := none, tokenMap := [], changedCells := [],
          movementMode := MovementMode.button, playerCell := ⟨0, 0⟩,
          store := [] } =
        { playerHeldToken := none, tokenMap := [], changedCells := [],
          movementMode := MovementMode.button, playerCell := ⟨0, 0⟩,
          store := [] }) ∧
    (rectClick 0 0
        { playerHeldToken := some 2, tokenMap := [((0, 0), 4)],
          changedCells := [], movementMode := MovementMode.button,
          playerCell := ⟨0, 0⟩, store := [] } =
        { playerHeldToken := some 2, tokenMap := [((0, 0), 4)],
          changedCells := [], movementMode := MovementMode.button,
          playerCell := ⟨0, 0⟩, store := [] }) ∧
    (rectClick 0 0
        { playerHeldToken := none, tokenMap := [((0, 0), 4)],
          changedCells := [], movementMode := MovementMode.button,
          playerCell := ⟨0, 0⟩, store := [] } =
        { playerHeldToken := none, tokenMap := [((0, 0), 4)],
          changedCells := [], movementMode := MovementMode.button,
          playerCell := ⟨0, 0⟩, store := [] }) ∧
    (rectClick 0 0
        { playerHeldToken := none, tokenMap := [], changedCells := [],
          movementMode := MovementMode.button, playerCell := ⟨0, 0⟩,
          store := [] } =
        { playerHeldToken := none, tokenMap := [], changedCells := [],
          movementMode := MovementMode.button, playerCell := ⟨0, 0⟩,
          store := [] }) :=
  ⟨⟨by decide, (rejected_clicks_no_change.1 _ 9 0 (by decide)).1⟩,
    (rejected_clicks_no_change.2.1 _ 0 0 2 4 rfl (by decide) (by decide)).2.2.2,
    rejected_clicks_no_change.2.2.1 _ 0 0 4 rfl (by decide),
    rejected_clicks_no_change.2.2.2 _ 0 0 rfl (by decide)⟩

/-- C3: saving the session and then loading the saved payload
reproduces the movement mode, the held token, the overlay contents,
and (in button mode) the player cell exactly. -/
theorem session_roundtrip (s : GameState) :
    (loadSession (saveSession s)).movementMode = s.movementMode ∧
    (loadSession (saveSession s)).playerHeldToken = s.playerHeldToken ∧
    (loadSession (saveSession s)).changedCells = s.changedCells ∧
    (s.movementMode = MovementMode.button →
      (loadSession (saveSession s)).playerCell = s.playerCell) := by
  unfold loadSession saveSession sessionPayload
  by_cases hb : s.movementMode = MovementMode.button <;>
    simp [hb]

/-- Witness for C3 at a concrete button-mode state with a non-empty
overlay and held token. -/
theorem session_roundtrip_witness :
    (loadSession (saveSession
        { playerHeldToken := some 8
          tokenMap := [((2, 3), 8)]
          changedCells := [((2, 3), some 8), ((0, 0), none)]
          movementMode := MovementMode.button
          playerCell := ⟨5, -7⟩
          store := [] })).movementMode = MovementMode.button ∧
    (loadSession (saveSession
        { playerHeldToken := some 8
          tokenMap := [((2, 3), 8)]
          changedCells := [((2, 3), some 8), ((0, 0), none)]
          movementMode := MovementMode.button
          playerCell := ⟨5, -7⟩
          store := [] })).playerHeldToken = some 8 ∧
    (loadSession (saveSession
        { playerHeldToken := some 8
          tokenMap := [((2, 3), 8)]
          changedCells := [((2, 3), some 8), ((0, 0), none)]
          movementMode := MovementMode.button
          playerCell := ⟨5, -7⟩
          store := [] })).changedCells = [((2, 3), some 8), ((0, 0), none)] ∧
    (loadSession (saveSession
        { playerHeldToken := some 8
          tokenMap := [((2, 3), 8)]
          changedCells := [((2, 3), some 8), ((0, 0), none)]
          movementMode := MovementMode.button
          playerCell := ⟨5, -7⟩
          store := [] })).playerCell = ⟨5, -7⟩ := by
  have h := session_roundtrip
    { playerHeldToken := some 8
      tokenMap := [((2, 3), 8)]
      changedCells := [((2, 3), some 8), ((0, 0), none)]
      movementMode := MovementMode.button
      playerCell := ⟨5, -7⟩
      store := [] }
  exact ⟨h.1, h.2.1, h.2.2.1, h.2.2.2 rfl⟩

/-- C10: movePlayer never modifies the held token or the overlay
store: when not permitted (not forced and not in button mode) it
changes nothing at all; when permitted it leaves held token, overlay
and movement mode unchanged and changes exactly one player-cell
coordinate by exactly 1 in the chosen cardinal direction. -/
theorem movePlayer_frame (s : GameState) (dir : Direction) (force : Bool)
    (visible : List Key) (luckv : Key → ℚ) :
    ((force = false ∧ s.movementMode ≠ MovementMode.button) →
      movePlayer dir force visible luckv s = s) ∧
    (¬ (force = false ∧ s.movementMode ≠ MovementMode.button) →
      (movePlayer dir force visible luckv s).playerHeldToken =
        s.playerHeldToken ∧
      (movePlayer dir force visible luckv s).changedCells = s.changedCells ∧
      (movePlayer dir force visible luckv s).movementMode = s.movementMode ∧
      (dir = Direction.north →
        (movePlayer dir force visible luckv s).playerCell.i =
          s.playerCell.i + 1 ∧
        (movePlayer dir force visible luckv s).playerCell.j =
          s.playerCell.j) ∧
      (dir = Direction.south →
        (movePlayer dir force visible luckv s).playerCell.i =
          s.playerCell.i - 1 ∧
        (movePlayer dir force visible luckv s).playerCell.j =
          s.playerCell.j) ∧
      (dir = Direction.east →
        (movePlayer dir force visible luckv s).playerCell.i =
          s.playerCell.i ∧
        (movePlayer dir force visible luckv s).playerCell.j =
          s.playerCell.j + 1) ∧
      (dir = Direction.west →
        (movePlayer dir force visible luckv s).playerCell.i =
          s.playerCell.i ∧
        (movePlayer dir force visible luckv s).playerCell.j =
          s.playerCell.j - 1)) := by
  constructor
  · intro hcond
    unfold movePlayer
    rw [if_pos hcond]
  · intro hcond
    unfold movePlayer
    rw [if_neg hcond]
    refine ⟨rfl, rfl, rfl, ?_, ?_, ?_, ?_⟩ <;>
      (intro hd; subst hd; exact ⟨rfl, rfl⟩)

/-- Witness for C10: a rejected geolocation-mode move and a permitted
button-mode move north. -/
theorem movePlayer_frame_witness :
    (((false : Bool) = false ∧
      ({ playerHeldToken := some 2, tokenMap := [], changedCells := [],
         movementMode := MovementMode.geolocation, playerCell := ⟨0, 0⟩,
         store := [] } : GameState).movementMode ≠ MovementMode.button) ∧
     movePlayer Direction.north false [] (fun _ => 0)
        { playerHeldToken := some 2, tokenMap := [], changedCells := [],
          movementMode := MovementMode.geolocation, playerCell := ⟨0, 0⟩,
          store := [] } =
        { playerHeldToken := some 2, tokenMap := [], changedCells := [],
          movementMode := MovementMode.geolocation, playerCell := ⟨0, 0⟩,
          store := [] }) ∧
    ((movePlayer Direction.north false [] (fun _ => 0)
        { playerHeldToken := some 2, tokenMap := [],
          changedCells := [((0, 0), none)],
          movementMode := MovementMode.button, playerCell := ⟨0, 0⟩,
          store := [] }).playerHeldToken = some 2 ∧
     (movePlayer Direction.north false [] (fun _ => 0)
        { playerHeldToken := some 2, tokenMap := [],
          changedCells := [((0, 0), none)],
          movementMode := MovementMode.button, playerCell := ⟨0, 0⟩,
          store := [] }).changedCells = [((0, 0), none)] ∧
     (movePlayer Direction.north false [] (fun _ => 0)
        { playerHeldToken := some 2, tokenMap := [],
          changedCells := [((0, 0), none)],
          movementMode := MovementMode.button, playerCell := ⟨0, 0⟩,
          store := [] }).movementMode = MovementMode.button ∧
     (movePlayer Direction.north false [] (fun _ => 0)
        { playerHeldToken := some 2, tokenMap := [],
          changedCells := [((0, 0), none)],
          movementMode := MovementMode.button, playerCell := ⟨0, 0⟩,
          store := [] }).playerCell.i = 1 ∧
     (movePlayer Direction.north false [] (fun _ => 0)
        { playerHeldToken := some 2, tokenMap := [],
          changedCells := [((0, 0), none)],
          movementMode := MovementMode.button, playerCell := ⟨0, 0⟩,
          store := [] }).playerCell.j = 0) := by
  constructor
  · exact ⟨⟨rfl, by decide⟩,
      (movePlayer_frame _ Direction.north false [] (fun _ => 0)).1
        ⟨rfl, by decide⟩⟩
  · have h := (movePlayer_frame
      { playerHeldToken := some 2, tokenMap := [],
        changedCells := [((0, 0), none)],
        movementMode := MovementMode.button, playerCell := ⟨0, 0⟩,
        store := [] } Direction.north false [] (fun _ => 0)).2 (by decide)
    exact ⟨h.1, h.2.1, h.2.2.1, (h.2.2.2.1 rfl).1, (h.2.2.2.1 rfl).2⟩

/-- C8: whenever the spawn computation reports a token present (luck
value r with 0 ≤ r < TOKEN_SPAWN_PROBABILITY), the bin index
floor((r / TOKEN_SPAWN_PROBABILITY)^TOKEN_SKEW * 7) lies in [0, 6]
(never out of range, so the clamps are safe no-ops here) and the
spawned value is 2^bin, hence always in {1, 2, 4, 8, 16, 32, 64}. -/
theorem spawn_value_in_bins (r : ℚ) (h0 : 0 ≤ r)
    (hp : r < TOKEN_SPAWN_PROBABILITY) :
    0 ≤ ⌊(r / TOKEN_SPAWN_PROBABILITY) ^ TOKEN_SKEW * (7 : ℚ)⌋ ∧
    ⌊(r / TOKEN_SPAWN_PROBABILITY) ^ TOKEN_SKEW * (7 : ℚ)⌋ ≤ 6 ∧
    spawnTokenValue r =
      some (2 ^ (⌊(r / TOKEN_SPAWN_PROBABILITY) ^ TOKEN_SKEW * (7 : ℚ)⌋).toNat) ∧
    ∀ v, spawnTokenValue r = some v →
      v ∈ ([1, 2, 4, 8, 16, 32, 64] : List Int) := by
  have hP : (0 : ℚ) < TOKEN_SPAWN_PROBABILITY := by
    norm_num [TOKEN_SPAWN_PROBABILITY]
  have hnorm0 : 0 ≤ r / TOKEN_SPAWN_PROBABILITY := div_nonneg h0 hP.le
  have hnorm1 : r / TOKEN_SPAWN_PROBABILITY < 1 := (div_lt_one hP).mpr hp
  have hx0 : 0 ≤ (r / TOKEN_SPAWN_PROBABILITY) ^ TOKEN_SKEW * (7 : ℚ) := by
    positivity
  have hx7 : (r / TOKEN_SPAWN_PROBABILITY) ^ TOKEN_SKEW * (7 : ℚ) < 7 := by
    have hlt : (r / TOKEN_SPAWN_PROBABILITY) ^ TOKEN_SKEW < 1 :=
      pow_lt_one₀ hnorm0 hnorm1 (by norm_num [TOKEN_SKEW])
    nlinarith
  have hb0 : 0 ≤ ⌊(r / TOKEN_SPAWN_PROBABILITY) ^ TOKEN_SKEW * (7 : ℚ)⌋ :=
    Int.floor_nonneg.mpr hx0
  have hb7 : ⌊(r / TOKEN_SPAWN_PROBABILITY) ^ TOKEN_SKEW * (7 : ℚ)⌋ < 7 :=
    Int.floor_lt.mpr (by exact_mod_cast hx7)
  have heq : spawnTokenValue r =
      some (2 ^ (⌊(r / TOKEN_SPAWN_PROBABILITY) ^ TOKEN_SKEW * (7 : ℚ)⌋).toNat) := by
    unfold spawnTokenValue
    rw [if_neg (not_le.mpr hp)]
    dsimp only
    rw [if_neg (not_lt.mpr hb0), if_neg (not_le.mpr hb7)]
  refine ⟨hb0, by omega, heq, ?_⟩
  intro v hv
  rw [heq] at hv
  injection hv with hv
  subst hv
  obtain ⟨b, hb⟩ :
      ∃ b : ℤ, ⌊(r / TOKEN_SPAWN_PROBABILITY) ^ TOKEN_SKEW * (7 : ℚ)⌋ = b :=
    ⟨_, rfl⟩
  rw [hb] at hb0 hb7 ⊢
  interval_cases b <;> decide

/-- Witness for C8 at the concrete luck value r = 1/20. -/
theorem spawn_value_in_bins_witness :
    ((0 : ℚ) ≤ 1 / 20 ∧ (1 : ℚ) / 20 < TOKEN_SPAWN_PROBABILITY) ∧
    spawnTokenValue (1 / 20) =
      some (2 ^
        (⌊((1 : ℚ) / 20 / TOKEN_SPAWN_PROBABILITY) ^ TOKEN_SKEW * (7 : ℚ)⌋).toNat) ∧
    ∀ v, spawnTokenValue (1 / 20) = some v →
      v ∈ ([1, 2, 4, 8, 16, 32, 64] : List Int) :=
  ⟨⟨by norm_num, by norm_num [TOKEN_SPAWN_PROBABILITY]⟩,
    (spawn_value_in_bins (1 / 20) (by norm_num)
      (by norm_num [TOKEN_SPAWN_PROBABILITY])).2.2⟩

/-- C4 (code bug): the pickup/merge handler that createCell wires on a
token restored from an overlay entry (main.ts lines 641-681) mutates
the overlay store without any persistence write — both of its mutating
branches omit the saveSession call that every sibling handler makes —
contradicting the persist-after-every-mutation design stated in the
source's own sibling comments.  At the failing input below, an
empty-handed in-reach pickup of the restored token rewrites the
overlay entry to null yet leaves the store untouched, while the
identical pickup through the spawned-token handler does write. -/
theorem restoredTokenClick_skips_persistence :
    (restoredTokenClick 0 0
        { playerHeldToken := none, tokenMap := [((0, 0), 4)],
          changedCells := [((0, 0), some 4)],
          movementMode := MovementMode.button, playerCell := ⟨0, 0⟩,
          store := [] }).changedCells ≠ [((0, 0), some 4)] ∧
    mapGet (restoredTokenClick 0 0
        { playerHeldToken := none, tokenMap := [((0, 0), 4)],
          changedCells := [((0, 0), some 4)],
          movementMode := MovementMode.button, playerCell := ⟨0, 0⟩,
          store := [] }).changedCells (0, 0) = some none ∧
    (restoredTokenClick 0 0
        { playerHeldToken := none, tokenMap := [((0, 0), 4)],
          changedCells := [((0, 0), some 4)],
          movementMode := MovementMode.button, playerCell := ⟨0, 0⟩,
          store := [] }).store = [] ∧
    (spawnedTokenClick 0 0
        { playerHeldToken := none, tokenMap := [((0, 0), 4)],
          changedCells := [((0, 0), some 4)],
          movementMode := MovementMode.button, playerCell := ⟨0, 0⟩,
          store := [] }).store ≠ [] := by
  decide

/-- C9: every state reachable from the fresh initial state through the
interaction transitions keeps every board token value, the held token
when present, and every non-null overlay value a power of two. -/
theorem reachable_tokens_pow2 (luckv : Key → ℚ) (s : GameState)
    (h : Reachable luckv s) : TokensPow2 s := by
  induction h with
  | init =>
      refine ⟨?_, ?_, ?_⟩
      · intro k v hv; simp [initialState, mapGet] at hv
      · intro v hv; simp [initialState] at hv
      · intro k v hv; simp [initialState, mapGet] at hv
  | spawnedClick s i j _ ih => exact TokensPow2_spawnedTokenClick ih i j
  | placedClick s i j _ ih => exact TokensPow2_spawnedTokenClick ih i j
  | restoredClick s i j _ ih => exact TokensPow2_restoredTokenClick ih i j
  | rect s i j _ ih => exact TokensPow2_rectClick ih i j
  | move s dir force visible _ ih =>
      exact TokensPow2_movePlayer ih dir force visible luckv
  | render s visible _ ih => exact TokensPow2Core_render ih visible luckv

/-- Witness for C9: the invariant at the trivially reachable initial
state. -/
theorem reachable_tokens_pow2_witness :
    Reachable (fun _ => (0 : ℚ)) initialState ∧ TokensPow2 initialState :=
  ⟨Reachable.init,
    reachable_tokens_pow2 (fun _ => 0) initialState Reachable.init⟩

end StreetSum
